import Mathlib

/-!
Verification of `once_per_worker` (src/once_per_worker/once_per_worker.py).

The development shallowly embeds the `OncePerWorker` class and its module-level
registry:

* `Handle` embeds one `OncePerWorker` instance: `_func` (identified by a
  numeric id), `_token`, `_value : Option V` (Python's `Optional[T]`, `none`
  is the `None` sentinel) and `_lock` (held / not held).  A ghost `id` field
  records object identity (Python `id()`): the registry allocates fresh ids,
  so "the exact same object" is "the same `id`".
* Factories are fallible and may return `None`: a factory is a function
  `Nat → Except E (Option V)` from the number of factory invocations made so
  far in the process to the result of the next invocation; threading the
  invocation counter through every operation lets theorems state "the factory
  was invoked at most once" as a fact about the counter.
* Sequential calls to `_get_value`, `__getattr__`, `__dir__`, `__repr__` and
  `instance_for_function` are embedded as state-passing functions.
* The concurrency claim about `_get_value` is settled against a separate
  small-step interleaving machine (`namespace Concurrent`) whose transitions
  are exactly the atomic actions of the double-checked-locking algorithm.
-/

namespace OncePerWorker

/-- One `OncePerWorker` instance: the fields set by `__init__`
(`_func`, `_token`, `_lock`, `_value`) plus a ghost object identity. -/
structure Handle (V : Type) where
  id : Nat
  funcId : Nat
  token : String
  value : Option V
  lock : Bool
  deriving Repr, DecidableEq

/-- Outcomes of `_get_value` that are not a normal return: the factory's own
exception, or the `assert self._value is not None` failing. -/
inductive GetErr (E : Type) where
  | factoryErr (e : E)
  | assertionError
  deriving Repr, DecidableEq

deriving instance DecidableEq for Except

/-- Result of one `_get_value` call: the returned value or raised exception,
the handle afterwards, and the process-wide factory-invocation count. -/
structure GetResult (V E : Type) where
  res : Except (GetErr E) V
  handle : Handle V
  ncalls : Nat
  deriving Repr, DecidableEq

/-- Embedding of `OncePerWorker._get_value`, sequentially.  Mirrors the source line by
line: fast path `if self._value is not None: return self._value`; otherwise
`with self._lock:` (acquire; every exit below releases), re-check
`if self._value is None: self._value = self._func()`, then
`assert self._value is not None` and return.  A factory exception propagates
out of the `with` block, releasing the lock and leaving `_value` untouched. -/
def getValue (f : Nat → Except E (Option V)) (h : Handle V) (ncalls : Nat) :
    GetResult V E :=
  match h.value with
  | some v => ⟨.ok v, h, ncalls⟩
  | none =>
    let h₁ : Handle V := { h with lock := true }
    match h₁.value with
    | some v => ⟨.ok v, { h₁ with lock := false }, ncalls⟩
    | none =>
      match f ncalls with
      | .error e => ⟨.error (.factoryErr e), { h₁ with lock := false }, ncalls + 1⟩
      | .ok r =>
        let h₂ : Handle V := { h₁ with value := r }
        match r with
        | some v => ⟨.ok v, { h₂ with lock := false }, ncalls + 1⟩
        | none => ⟨.error .assertionError, { h₂ with lock := false }, ncalls + 1⟩

/-- Iterated state: `k` sequential `_get_value` calls, threading the handle and the
factory-invocation count (call results are discarded). -/
def iterState (f : Nat → Except E (Option V)) : Nat → Handle V × Nat → Handle V × Nat
  | 0, st => st
  | k + 1, (h, c) =>
    let r := getValue f h c
    iterState f k (r.handle, r.ncalls)

theorem getValue_of_some {f : Nat → Except E (Option V)} {h : Handle V} {c : Nat}
    {v : V} (hv : h.value = some v) : getValue f h c = ⟨.ok v, h, c⟩ := by
  unfold getValue
  rw [hv]

theorem iterState_of_some {f : Nat → Except E (Option V)} {h : Handle V} {c : Nat}
    {v : V} (hv : h.value = some v) (k : Nat) : iterState f k (h, c) = (h, c) := by
  induction k with
  | zero => rfl
  | succ k ih =>
    unfold iterState
    rw [getValue_of_some hv]
    exact ih

theorem getValue_of_none_ok_some {f : Nat → Except E (Option V)} {h : Handle V}
    {c : Nat} {v : V} (hv : h.value = none) (hf : f c = .ok (some v)) :
    getValue f h c = ⟨.ok v, { h with value := some v, lock := false }, c + 1⟩ := by
  unfold getValue
  rw [hv]
  simp [hv, hf]

theorem getValue_of_none_error {f : Nat → Except E (Option V)} {h : Handle V}
    {c : Nat} {e : E} (hv : h.value = none) (hf : f c = .error e) :
    getValue f h c = ⟨.error (.factoryErr e), { h with lock := false }, c + 1⟩ := by
  unfold getValue
  rw [hv]
  simp [hv, hf]

theorem getValue_of_none_ok_none {f : Nat → Except E (Option V)} {h : Handle V}
    {c : Nat} (hv : h.value = none) (hf : f c = .ok none) :
    getValue f h c = ⟨.error .assertionError, { h with lock := false }, c + 1⟩ := by
  unfold getValue
  rw [hv]
  simp [hv, hf]

/-- A fresh handle as `__init__` would build it (`_value = None`, lock free). -/
def sampleHandle : Handle Nat := ⟨0, 0, "tok-0", none, false⟩

/-- A well-behaved factory: never raises, never returns `None`. -/
def okFactory : Nat → Except Unit (Option Nat) := fun _ => .ok (some 42)

/-- A factory whose legitimate return value is Python's `None`. -/
def noneFactory : Nat → Except Unit (Option Nat) := fun _ => .ok none

/-- A factory that raises on its first invocation and succeeds afterwards. -/
def retryFactory : Nat → Except Unit (Option Nat) := fun n =>
  if n = 0 then .error () else .ok (some 7)

/-- C1 (amended): for a handle whose value slot is empty, any number of
sequential `_get_value` calls invoke the factory at most once — provided the
factory never throws and never returns the empty-slot sentinel `None`.  (The
original claim also covered a factory legitimately returning `None`; the code
re-invokes such a factory on every call.) -/
theorem factory_at_most_once_of_never_none (f : Nat → Except E (Option V))
    (h₀ : Handle V) (hfresh : h₀.value = none)
    (hf : ∀ n, ∃ v, f n = .ok (some v)) (k : Nat) :
    (iterState f k (h₀, 0)).2 ≤ 1 := by
  cases k with
  | zero => simp [iterState]
  | succ k =>
    obtain ⟨v, hv⟩ := hf 0
    unfold iterState
    rw [getValue_of_none_ok_some hfresh hv]
    rw [iterState_of_some (v := v) rfl]

/-- C1 counterexample: a factory legitimately returning `None` is re-invoked:
after two sequential `_get_value` calls on a fresh handle the factory has run
twice, refuting "at most once ... including when the factory's legitimate
return value is the empty-slot sentinel (None)". -/
theorem factory_reinvoked_on_none_counterexample :
    ¬ (iterState noneFactory 2 (sampleHandle, 0)).2 ≤ 1 := by decide

/-- C1 witness: three sequential calls with a well-behaved factory invoke it
at most once. -/
theorem factory_at_most_once_witness :
    (iterState okFactory 3 (sampleHandle, 0)).2 ≤ 1 :=
  factory_at_most_once_of_never_none okFactory sampleHandle rfl
    (fun _ => ⟨42, rfl⟩) 3

/-- C5: if the factory raises on the first `_get_value` call, the exception
propagates unchanged (`factoryErr e`), the lock is released, and the value
slot stays empty; the next call re-attempts initialization and, the factory
now succeeding, returns and stores the produced value. -/
theorem factory_error_no_poisoning (f : Nat → Except E (Option V))
    (h₀ : Handle V) (e : E) (v : V) (hfresh : h₀.value = none)
    (hf0 : f 0 = .error e) (hf1 : f 1 = .ok (some v)) :
    getValue f h₀ 0 = ⟨.error (.factoryErr e), { h₀ with lock := false }, 1⟩ ∧
    (getValue f h₀ 0).handle.value = none ∧
    (getValue f h₀ 0).handle.lock = false ∧
    getValue f (getValue f h₀ 0).handle (getValue f h₀ 0).ncalls
      = ⟨.ok v, { h₀ with value := some v, lock := false }, 2⟩ := by
  have e1 := getValue_of_none_error (f := f) hfresh hf0
  refine ⟨e1, ?_, ?_, ?_⟩
  · rw [e1]
    exact hfresh
  · rw [e1]
  · rw [e1]
    have e2 := getValue_of_none_ok_some
      (f := f) (h := { h₀ with lock := false }) (c := 1) (v := v) hfresh hf1
    simpa using e2

/-- C5 witness: the fail-then-succeed factory at the concrete fresh handle. -/
theorem factory_error_no_poisoning_witness :
    getValue retryFactory sampleHandle 0
        = ⟨.error (.factoryErr ()), { sampleHandle with lock := false }, 1⟩ ∧
      (getValue retryFactory sampleHandle 0).handle.value = none ∧
      (getValue retryFactory sampleHandle 0).handle.lock = false ∧
      getValue retryFactory (getValue retryFactory sampleHandle 0).handle
          (getValue retryFactory sampleHandle 0).ncalls
        = ⟨.ok 7, { sampleHandle with value := some 7, lock := false }, 2⟩ :=
  factory_error_no_poisoning retryFactory sampleHandle () 7 rfl rfl rfl

/-- The reserved marker names guarded in `__getattr__`:
`("__dask_graph__", "__name__", "__dask_tokenize__")`. -/
def reservedNames : List String := ["__dask_graph__", "__name__", "__dask_tokenize__"]

/-- Errors surfaced by `__getattr__`: Python's `AttributeError(attr)`, or an
exception escaping from `self._get_value()`. -/
inductive PyErr (E : Type) where
  | attributeError (name : String)
  | getErr (e : GetErr E)
  deriving Repr, DecidableEq

/-- Embedding of `OncePerWorker.__getattr__`.  `attrs v a` models `getattr(v, a)` on the
underlying value `v` (`none` when `v` lacks the capability, in which case
Python's `getattr` raises `AttributeError(a)`).  Mirrors the source: reserved
names raise `AttributeError(attr)` up front; anything else is forwarded to
`getattr(self._get_value(), attr)`. -/
def getattrOPW (f : Nat → Except E (Option V)) (attrs : V → String → Option A)
    (h : Handle V) (ncalls : Nat) (attr : String) :
    Except (PyErr E) A × Handle V × Nat :=
  if attr ∈ reservedNames then
    (.error (.attributeError attr), h, ncalls)
  else
    match getValue f h ncalls with
    | ⟨.ok v, h', c'⟩ =>
      match attrs v attr with
      | some a => (.ok a, h', c')
      | none => (.error (.attributeError attr), h', c')
    | ⟨.error e, h', c'⟩ => (.error (.getErr e), h', c')

/-- C6: accessing a reserved marker name on a handle raises
`AttributeError` and leaves the handle and the factory-invocation count
untouched — the factory is never invoked, even before any real access has
populated the value. -/
theorem reserved_name_raises_without_factory (f : Nat → Except E (Option V))
    (attrs : V → String → Option A) (h : Handle V) (ncalls : Nat)
    (attr : String) (ha : attr ∈ reservedNames) :
    getattrOPW f attrs h ncalls attr = (.error (.attributeError attr), h, ncalls) := by
  unfold getattrOPW
  rw [if_pos ha]

/-- C6 witness: `__name__` on a fresh handle, with a factory that would be
observable if it ran. -/
theorem reserved_name_raises_without_factory_witness :
    "__name__" ∈ reservedNames ∧
      getattrOPW okFactory (fun v a => if a = "size" then some v else none)
          sampleHandle 0 "__name__"
        = (.error (.attributeError "__name__"), sampleHandle, 0) :=
  ⟨by decide,
   reserved_name_raises_without_factory okFactory
     (fun v a => if a = "size" then some v else none) sampleHandle 0 "__name__"
     (by decide)⟩

/-- The attributes of Python's `None` (`dir(None)` in CPython); what matters
below is that this list is not empty. -/
def dirNoneType : List String :=
  ["__bool__", "__class__", "__delattr__", "__dir__", "__doc__", "__eq__",
   "__format__", "__ge__", "__getattribute__", "__gt__", "__hash__",
   "__init__", "__init_subclass__", "__le__", "__lt__", "__ne__", "__new__",
   "__reduce__", "__reduce_ex__", "__repr__", "__setattr__", "__sizeof__",
   "__str__", "__subclasshook__"]

/-- Python's `dir(x)` applied to the value slot: `dir(None)` when empty,
`dir(v)` (modelled by `dirV`) when populated. -/
def pydir (dirV : V → List String) : Option V → List String
  | none => dirNoneType
  | some v => dirV v

/-- Embedding of `OncePerWorker.__dir__`: `return dir(self._value)` — reads the raw slot,
never calls `_get_value`. -/
def dirOPW (dirV : V → List String) (h : Handle V) : List String :=
  pydir dirV h.value

/-- C8 (amended): `__dir__` reflects the capabilities of the populated value
when the slot is populated; when the slot is empty it yields `dir(None)` —
the attribute list of the `None` sentinel, which is not empty (the original
claim said "an empty set"). -/
theorem dir_reflects_value (dirV : V → List String) (h : Handle V) (v : V) :
    (h.value = some v → dirOPW dirV h = dirV v) ∧
      (h.value = none → dirOPW dirV h = dirNoneType ∧ dirOPW dirV h ≠ []) := by
  constructor
  · intro hv
    unfold dirOPW
    rw [hv]
    rfl
  · intro hv
    unfold dirOPW
    rw [hv]
    have hne : dirNoneType ≠ [] := by decide
    exact ⟨rfl, hne⟩

/-- C8 counterexample: on a fresh (unpopulated) handle `__dir__` is
`dir(None)`, not the empty list. -/
theorem dir_unpopulated_counterexample :
    dirOPW (fun v : Nat => [toString v]) sampleHandle ≠ [] := by decide

/-- C8 witness: a populated handle lists its value's capabilities. -/
theorem dir_reflects_value_witness :
    dirOPW (fun v : Nat => [toString v]) { sampleHandle with value := some 5 }
      = ["5"] :=
  (dir_reflects_value (fun v : Nat => [toString v])
    { sampleHandle with value := some 5 } 5).1 rfl

/-- Embedding of `OncePerWorker.__repr__`:
`f"<{type(self).__name__} at {hex(id(self))} of {self._value!r}>"`.
`reprV` models `repr` on `Optional[T]`; `addr` models `hex(id(self))`.  The
factory `f` and the invocation count are threaded through to state that the
factory is not invoked. -/
def reprOPW (f : Nat → Except E (Option V)) (reprV : Option V → String)
    (addr : String) (h : Handle V) (ncalls : Nat) : String × Handle V × Nat :=
  ("<OncePerWorker at " ++ addr ++ " of " ++ reprV h.value ++ ">", h, ncalls)

/-- C10: `__repr__` reads the raw value slot: its output is independent of
the factory, the handle and invocation count are returned unchanged (in
particular printing an uninitialized handle does not initialize it), and the
string is built from the raw `_value` field. -/
theorem repr_no_initialization (f g : Nat → Except E (Option V))
    (reprV : Option V → String) (addr : String) (h : Handle V) (ncalls : Nat) :
    reprOPW f reprV addr h ncalls = reprOPW g reprV addr h ncalls ∧
      (reprOPW f reprV addr h ncalls).2.1 = h ∧
      (reprOPW f reprV addr h ncalls).2.2 = ncalls ∧
      (reprOPW f reprV addr h ncalls).1
        = "<OncePerWorker at " ++ addr ++ " of " ++ reprV h.value ++ ">" :=
  ⟨rfl, rfl, rfl, rfl⟩

/-- The token oracle `dask.base.tokenize(func)`, modelled as a concrete
deterministic injective hash of the factory's identity.  Like the real
oracle's hex digest, its output is never the empty string. -/
def tokenize (funcId : Nat) : String := "tok-" ++ toString funcId

/-- Python's `a or b` on `Optional[str]`: `None` and `""` are falsy. -/
def pyOr : Option String → String → String
  | none, alt => alt
  | some t, alt => if t = "" then alt else t

/-- `token_ = token or dask.base.tokenize(func)` in `instance_for_function`. -/
def resolveToken (funcId : Nat) (token : Option String) : String :=
  pyOr token (tokenize funcId)

/-- The module state around `OncePerWorker`: the class-level `_instances`
dict (an association list, newest entry first), the `_instances_lock`, and a
ghost allocator `nextId` for object identities. -/
structure Registry (V : Type) where
  nextId : Nat
  entries : List (String × Handle V)
  lock : Bool
  deriving Repr, DecidableEq

/-- Embedding of `cls._instances[token_]`, returning `none` on `KeyError`. -/
def lookupToken (entries : List (String × Handle V)) (t : String) :
    Option (Handle V) :=
  match entries.find? (fun p => p.1 == t) with
  | some p => some p.2
  | none => none

/-- Embedding of `OncePerWorker.instance_for_function`, sequentially (the
`with cls._instances_lock:` block acquires the class lock, runs the body
atomically, and releases it on every exit).  The body: try to return
`cls._instances[token_]`; on `KeyError`, build `cls(func, token_)` — whose
`__init__` sets `_value = None` and a fresh, unheld `_lock` — store it and
return it.  The factory-invocation count is threaded through unchanged:
nothing here calls `func`. -/
def instance_for_function (reg : Registry V) (funcId : Nat)
    (token : Option String) (ncalls : Nat) : (Registry V × Handle V) × Nat :=
  let token_ := resolveToken funcId token
  let reg₁ : Registry V := { reg with lock := true }
  match lookupToken reg₁.entries token_ with
  | some inst => (({ reg₁ with lock := false }, inst), ncalls)
  | none =>
    let inst : Handle V :=
      { id := reg₁.nextId, funcId := funcId, token := token_,
        value := none, lock := false }
    (({ nextId := reg₁.nextId + 1,
        entries := (token_, inst) :: reg₁.entries,
        lock := false }, inst), ncalls)

/-- Embedding of `OncePerWorker.__reduce__`:
`return (self.instance_for_function, (self._func, self._token))` — the
serialized payload is exactly the factory and the token. -/
def reduceOPW (h : Handle V) : Nat × String := (h.funcId, h.token)

/-- Registry well-formedness: every stored handle records the key it is
stored under (true of every handle `instance_for_function` inserts). -/
def WF (reg : Registry V) : Prop :=
  ∀ p ∈ reg.entries, (p.2).token = p.1

theorem tokenize_ne_empty (funcId : Nat) : tokenize funcId ≠ "" := by
  intro hcon
  have hlen := congrArg String.length hcon
  simp [tokenize, String.length_append] at hlen
  exact absurd hlen.1 (by decide)

theorem resolveToken_ne_empty (funcId : Nat) (token : Option String) :
    resolveToken funcId token ≠ "" := by
  cases token with
  | none => exact tokenize_ne_empty funcId
  | some t =>
    by_cases ht : t = ""
    · show (if t = "" then tokenize funcId else t) ≠ ""
      rw [if_pos ht]
      exact tokenize_ne_empty funcId
    · show (if t = "" then tokenize funcId else t) ≠ ""
      rw [if_neg ht]
      exact ht

theorem lookupToken_mem {entries : List (String × Handle V)} {t : String}
    {hh : Handle V} (hl : lookupToken entries t = some hh) : (t, hh) ∈ entries := by
  unfold lookupToken at hl
  cases hfind : entries.find? (fun p => p.1 == t) with
  | none => rw [hfind] at hl; cases hl
  | some p =>
    rw [hfind] at hl
    injection hl with hl
    have hmem := List.mem_of_find?_eq_some hfind
    have hkey := List.find?_some hfind
    have hkey' : p.1 = t := by
      simp only [beq_iff_eq] at hkey
      exact hkey
    have : p = (t, hh) := by
      rw [← hkey', ← hl]
    rw [← this]
    exact hmem

theorem lookupToken_cons (k : String) (hh : Handle V)
    (es : List (String × Handle V)) (t : String) :
    lookupToken ((k, hh) :: es) t
      = if k = t then some hh else lookupToken es t := by
  by_cases hk : k = t
  · rw [if_pos hk]
    unfold lookupToken
    rw [List.find?_cons_of_pos]
    exact beq_iff_eq.mpr hk
  · rw [if_neg hk]
    unfold lookupToken
    rw [List.find?_cons_of_neg]
    simp [hk]

theorem setLock_eq {reg : Registry V} (hl : reg.lock = false) :
    ({ reg with lock := false } : Registry V) = reg := by
  obtain ⟨a, b, l⟩ := reg
  simp only at hl
  rw [hl]

/-- Behaviour of `instance_for_function` on the fast path: the token is
already registered. -/
theorem instance_for_function_found {reg : Registry V} {funcId : Nat}
    {token : Option String} {c : Nat} {hh : Handle V}
    (hl : lookupToken reg.entries (resolveToken funcId token) = some hh) :
    instance_for_function reg funcId token c
      = (({ reg with lock := false }, hh), c) := by
  unfold instance_for_function
  simp only []
  rw [show ({ reg with lock := true } : Registry V).entries = reg.entries from rfl]
  rw [hl]

/-- Behaviour of `instance_for_function` on the slow path: the token is
absent, so a fresh empty handle is allocated and registered. -/
theorem instance_for_function_new {reg : Registry V} {funcId : Nat}
    {token : Option String} {c : Nat}
    (hl : lookupToken reg.entries (resolveToken funcId token) = none) :
    instance_for_function reg funcId token c
      = (({ nextId := reg.nextId + 1,
            entries := (resolveToken funcId token,
              { id := reg.nextId, funcId := funcId,
                token := resolveToken funcId token,
                value := none, lock := false }) :: reg.entries,
            lock := false },
          { id := reg.nextId, funcId := funcId,
            token := resolveToken funcId token,
            value := none, lock := false }), c) := by
  unfold instance_for_function
  simp only []
  rw [show ({ reg with lock := true } : Registry V).entries = reg.entries from rfl]
  rw [hl]

/-- Core facts about any `instance_for_function` call on a well-formed
registry: the resolved token now maps to the returned handle, the returned
handle carries the resolved token, well-formedness is preserved, the class
lock ends released, and the factory-invocation count is unchanged. -/
theorem instance_for_function_spec (reg : Registry V) (funcId : Nat)
    (token : Option String) (c : Nat) (hwf : WF reg) :
    lookupToken (instance_for_function reg funcId token c).1.1.entries
        (resolveToken funcId token)
      = some (instance_for_function reg funcId token c).1.2 ∧
    (instance_for_function reg funcId token c).1.2.token
      = resolveToken funcId token ∧
    WF (instance_for_function reg funcId token c).1.1 ∧
    (instance_for_function reg funcId token c).1.1.lock = false ∧
    (instance_for_function reg funcId token c).2 = c := by
  cases hl : lookupToken reg.entries (resolveToken funcId token) with
  | some inst =>
    rw [instance_for_function_found hl]
    have hmem := lookupToken_mem hl
    refine ⟨hl, hwf _ hmem, ?_, rfl, rfl⟩
    intro p hp
    exact hwf p hp
  | none =>
    rw [instance_for_function_new hl]
    refine ⟨?_, rfl, ?_, rfl, rfl⟩
    · rw [lookupToken_cons]
      rw [if_pos rfl]
    · intro p hp
      cases hp with
      | head => rfl
      | tail _ hp => exact hwf p hp

/-- Entries are never removed or overwritten: any token already mapping to a
handle still maps to that same handle after any `instance_for_function`. -/
theorem lookup_preserved (reg : Registry V) (funcId : Nat)
    (token : Option String) (c : Nat) (t : String) (hh : Handle V)
    (hl : lookupToken reg.entries t = some hh) :
    lookupToken (instance_for_function reg funcId token c).1.1.entries t
      = some hh := by
  cases hfind : lookupToken reg.entries (resolveToken funcId token) with
  | some inst =>
    rw [instance_for_function_found hfind]
    exact hl
  | none =>
    rw [instance_for_function_new hfind]
    show lookupToken ((resolveToken funcId token, _) :: reg.entries) t = some hh
    rw [lookupToken_cons]
    by_cases ht : resolveToken funcId token = t
    · rw [ht] at hfind
      rw [hfind] at hl
      cases hl
    · rw [if_neg ht]
      exact hl

/-- An empty registry (the module state before any handle is created). -/
def regEmpty : Registry Nat := ⟨0, [], false⟩

/-- A handle registered under explicit token `"a"`. -/
def handleA : Handle Nat := ⟨0, 9, "a", none, false⟩

/-- A registry already holding `handleA` under token `"a"`. -/
def regOne : Registry Nat := ⟨1, [("a", handleA)], false⟩

/-- C3: on a well-formed registry, `__reduce__` of the handle returned by
`instance_for_function` carries exactly `(factory, token)` — independent of
the cached value — and re-materializing through
`instance_for_function(func, token)` in the same process returns the exact
same handle object (same ghost identity) with the registry unchanged. -/
theorem reduce_roundtrip_same_object (reg₀ : Registry V) (funcId : Nat)
    (token : Option String) (c c' : Nat) (hwf : WF reg₀) :
    let reg₁ := (instance_for_function reg₀ funcId token c).1.1
    let h := (instance_for_function reg₀ funcId token c).1.2
    reduceOPW h = (h.funcId, h.token) ∧
    (∀ w : Option V, reduceOPW { h with value := w } = reduceOPW h) ∧
    instance_for_function reg₁ (reduceOPW h).1 (some (reduceOPW h).2) c'
      = ((reg₁, h), c') := by
  intro reg₁ h
  obtain ⟨hlook, htok, hwf₁, hlock₁, _⟩ :=
    instance_for_function_spec reg₀ funcId token c hwf
  refine ⟨rfl, fun w => rfl, ?_⟩
  have htne : h.token ≠ "" := by
    rw [htok]
    exact resolveToken_ne_empty funcId token
  have hres : resolveToken h.funcId (some h.token) = h.token := by
    show (if h.token = "" then tokenize h.funcId else h.token) = h.token
    rw [if_neg htne]
  have hl2 : lookupToken reg₁.entries (resolveToken h.funcId (some h.token))
      = some h := by
    rw [hres, htok]
    exact hlook
  show instance_for_function reg₁ h.funcId (some h.token) c' = ((reg₁, h), c')
  rw [instance_for_function_found hl2]
  rw [setLock_eq hlock₁]

/-- C3 witness: create a handle in the empty registry and round-trip it. -/
theorem reduce_roundtrip_same_object_witness :
    let reg₁ := (instance_for_function regEmpty 3 none 0).1.1
    let h := (instance_for_function regEmpty 3 none 0).1.2
    reduceOPW h = (h.funcId, h.token) ∧
    (∀ w : Option Nat, reduceOPW { h with value := w } = reduceOPW h) ∧
    instance_for_function reg₁ (reduceOPW h).1 (some (reduceOPW h).2) 5
      = ((reg₁, h), 5) :=
  reduce_roundtrip_same_object regEmpty 3 none 0 5 (by intro p hp; simp [regEmpty] at hp)

/-- C4: registry invariant.  Any entry present before an
`instance_for_function` call is still present, unchanged, afterwards (entries
are never removed or overwritten); and a second call whose token resolves to
the same string returns the identical handle object with the registry
unchanged — even when a different factory is supplied (first writer wins). -/
theorem registry_first_writer_wins (reg₀ : Registry V) (f₁ f₂ : Nat)
    (tok₁ tok₂ : Option String) (c c' : Nat) (t : String) (hPrev : Handle V)
    (hwf : WF reg₀)
    (hprev : lookupToken reg₀.entries t = some hPrev)
    (hsame : resolveToken f₁ tok₁ = resolveToken f₂ tok₂) :
    let reg₁ := (instance_for_function reg₀ f₁ tok₁ c).1.1
    let h₁ := (instance_for_function reg₀ f₁ tok₁ c).1.2
    lookupToken reg₁.entries t = some hPrev ∧
    instance_for_function reg₁ f₂ tok₂ c' = ((reg₁, h₁), c') := by
  intro reg₁ h₁
  obtain ⟨hlook, htok, hwf₁, hlock₁, _⟩ :=
    instance_for_function_spec reg₀ f₁ tok₁ c hwf
  refine ⟨lookup_preserved reg₀ f₁ tok₁ c t hPrev hprev, ?_⟩
  have hl2 : lookupToken reg₁.entries (resolveToken f₂ tok₂) = some h₁ := by
    rw [← hsame]
    exact hlook
  rw [instance_for_function_found hl2]
  rw [setLock_eq hlock₁]

/-- C4 witness: same explicit token `"k"` supplied with two different
factories (ids 1 and 2); the pre-existing `"a"` entry survives. -/
theorem registry_first_writer_wins_witness :
    let reg₁ := (instance_for_function regOne 1 (some "k") 0).1.1
    let h₁ := (instance_for_function regOne 1 (some "k") 0).1.2
    lookupToken reg₁.entries "a" = some handleA ∧
    instance_for_function reg₁ 2 (some "k") 7 = ((reg₁, h₁), 7) :=
  registry_first_writer_wins regOne 1 2 (some "k") (some "k") 0 7 "a" handleA
    (by intro p hp
        simp [regOne] at hp
        rw [hp]
        rfl)
    (by decide) (by decide)

/-- C7 counterexample: an explicitly supplied empty-string token is not used
as the registry key: Python's `token or dask.base.tokenize(func)` treats `""`
as falsy, so the created handle is keyed by the factory hash instead. -/
theorem empty_token_not_verbatim_counterexample :
    (instance_for_function regEmpty 7 (some "") 0).1.2.token = tokenize 7 ∧
    (instance_for_function regEmpty 7 (some "") 0).1.2.token ≠ "" := by decide

/-- C7 (amended): a non-empty explicit token is used verbatim as the registry
key; when the token is absent — or equal to the empty string, which Python's
`or` treats like absent — the deterministic factory hash is used instead. -/
theorem explicit_token_resolution (reg : Registry V) (funcId : Nat)
    (t : String) (c : Nat) (hwf : WF reg) (ht : t ≠ "") :
    resolveToken funcId (some t) = t ∧
    resolveToken funcId none = tokenize funcId ∧
    resolveToken funcId (some "") = tokenize funcId ∧
    (instance_for_function reg funcId (some t) c).1.2.token = t := by
  have h1 : resolveToken funcId (some t) = t := by
    show (if t = "" then tokenize funcId else t) = t
    rw [if_neg ht]
  refine ⟨h1, rfl, ?_, ?_⟩
  · show (if ("" : String) = "" then tokenize funcId else "") = tokenize funcId
    rw [if_pos rfl]
  · have := (instance_for_function_spec reg funcId (some t) c hwf).2.1
    rw [this, h1]

/-- C7 witness: the token `"mytok"` with factory id 4 on the empty registry. -/
theorem explicit_token_resolution_witness :
    resolveToken 4 (some "mytok") = "mytok" ∧
    resolveToken 4 none = tokenize 4 ∧
    resolveToken 4 (some "") = tokenize 4 ∧
    (instance_for_function regEmpty 4 (some "mytok") 0).1.2.token = "mytok" :=
  explicit_token_resolution regEmpty 4 "mytok" 0 (by intro p hp; simp [regEmpty] at hp) (by decide)

/-- C9: obtaining or creating a handle never invokes the factory — the
invocation count is returned unchanged — the class lock is released on exit,
and a freshly created handle (token not yet registered, i.e. the `__init__`
path) has an empty value slot and an unheld per-handle lock. -/
theorem instance_never_calls_factory (reg : Registry V) (funcId : Nat)
    (token : Option String) (c : Nat) :
    (instance_for_function reg funcId token c).2 = c ∧
    (instance_for_function reg funcId token c).1.1.lock = false ∧
    (lookupToken reg.entries (resolveToken funcId token) = none →
      (instance_for_function reg funcId token c).1.2.value = none ∧
      (instance_for_function reg funcId token c).1.2.lock = false) := by
  cases hl : lookupToken reg.entries (resolveToken funcId token) with
  | some inst =>
    rw [instance_for_function_found hl]
    exact ⟨rfl, rfl, fun hcon => Option.noConfusion hcon⟩
  | none =>
    rw [instance_for_function_new hl]
    exact ⟨rfl, rfl, fun _ => ⟨rfl, rfl⟩⟩

/-- C9 witness: creating the first handle in the empty registry leaves the
invocation count at 0 and yields an empty, unlocked holder. -/
theorem instance_never_calls_factory_witness :
    (instance_for_function regEmpty 3 none 0).2 = 0 ∧
    (instance_for_function regEmpty 3 none 0).1.2.value = none ∧
    (instance_for_function regEmpty 3 none 0).1.2.lock = false :=
  ⟨(instance_never_calls_factory regEmpty 3 none 0).1,
   ((instance_never_calls_factory regEmpty 3 none 0).2.2 (by decide)).1,
   ((instance_never_calls_factory regEmpty 3 none 0).2.2 (by decide)).2⟩

namespace Concurrent

/-!
Small-step interleaving model of N threads concurrently executing
`_get_value` on one shared handle, for the concurrency claim.  The factory
is the one from the spec's test: it increments a shared counter and returns
a (non-`None`) value.  Each transition is one atomic action of the source's
double-checked-locking algorithm; the scheduler (which thread moves next) is
arbitrary.  The lock is modelled with an explicit owner (`Option Nat`) so
that mutual exclusion is expressible; `threading.Lock` has no owner field,
the owner is ghost state.
-/

/-- Program counter of one thread inside `_get_value`. -/
inductive PC where
  /-- about to run the unlocked fast-path check `if self._value is not None` -/
  | start
  /-- fast path saw `None`; blocked on `self._lock.acquire()` -/
  | wait
  /-- lock acquired; about to re-check `if self._value is None` -/
  | held
  /-- re-check saw `None`; about to call `self._func()` -/
  | run
  /-- about to release the lock and return `self._value` -/
  | unlock
  /-- returned from `_get_value` -/
  | done
  deriving Repr, DecidableEq

/-- Does a thread at this program point hold the handle's lock? -/
def isHolding : PC → Bool
  | .held => true
  | .run => true
  | .unlock => true
  | _ => false

/-- Shared state: the handle's value slot, the lock and its ghost owner, the
factory's shared counter, and one program counter per thread. -/
structure CState where
  value : Option Unit
  lock : Option Nat
  counter : Nat
  pcs : List PC
  deriving Repr, DecidableEq

/-- One interleaved atomic action of some thread `i`. -/
inductive Step : CState → CState → Prop where
  /-- fast path: `self._value is not None`, return it without locking -/
  | fastSome (s : CState) (i : Nat)
      (hpc : s.pcs[i]? = some .start) (hv : s.value.isSome) :
      Step s { s with pcs := s.pcs.set i .done }
  /-- fast path saw `None`: fall through to `with self._lock:` -/
  | fastNone (s : CState) (i : Nat)
      (hpc : s.pcs[i]? = some .start) (hv : s.value = none) :
      Step s { s with pcs := s.pcs.set i .wait }
  /-- acquire the lock (only when free) -/
  | acquire (s : CState) (i : Nat)
      (hpc : s.pcs[i]? = some .wait) (hl : s.lock = none) :
      Step s { s with pcs := s.pcs.set i .held, lock := some i }
  /-- re-check under the lock: value already populated, skip the factory -/
  | checkSome (s : CState) (i : Nat)
      (hpc : s.pcs[i]? = some .held) (hv : s.value.isSome) :
      Step s { s with pcs := s.pcs.set i .unlock }
  /-- re-check under the lock: still `None`, so go invoke the factory -/
  | checkNone (s : CState) (i : Nat)
      (hpc : s.pcs[i]? = some .held) (hv : s.value = none) :
      Step s { s with pcs := s.pcs.set i .run }
  /-- factory call `self._value = self._func()`: bump the shared counter, store the value -/
  | runFactory (s : CState) (i : Nat)
      (hpc : s.pcs[i]? = some .run) :
      Step s { s with pcs := s.pcs.set i PC.unlock, value := some (),
                      counter := s.counter + 1 }
  /-- leave the `with` block (release the lock) and return -/
  | release (s : CState) (i : Nat)
      (hpc : s.pcs[i]? = some .unlock) :
      Step s { s with pcs := s.pcs.set i .done, lock := none }

/-- Initial state: empty value slot, free lock, counter 0, `n` threads each
about to call `_get_value`. -/
def init (n : Nat) : CState := ⟨none, none, 0, List.replicate n .start⟩

/-- States reachable from `init n` by any interleaving. -/
def Reachable (n : Nat) (s : CState) : Prop :=
  Relation.ReflTransGen Step (init n) s

/-- The inductive invariant: lock ownership matches program points, the
counter counts exactly the (at most one) factory invocation, a thread about
to run the factory has certainty that the slot is empty, and a thread at or
past the lock release — or already returned — has seen a populated slot. -/
structure Inv (n : Nat) (s : CState) : Prop where
  len : s.pcs.length = n
  holding_lock : ∀ (i : Nat) (p : PC), s.pcs[i]? = some p → isHolding p = true → s.lock = some i
  cnt : s.counter = if s.value.isSome then 1 else 0
  run_none : ∀ (i : Nat), s.pcs[i]? = some PC.run → s.value = none
  unlock_some : ∀ (i : Nat), s.pcs[i]? = some PC.unlock → s.value.isSome = true
  done_some : ∀ (i : Nat), s.pcs[i]? = some PC.done → s.value.isSome = true

theorem replicate_some {n i : Nat} {a p : PC}
    (h : (List.replicate n a)[i]? = some p) : p = a := by
  rw [List.getElem?_replicate] at h
  by_cases hi : i < n
  · rw [if_pos hi] at h
    injection h with h
    exact h.symm
  · rw [if_neg hi] at h
    cases h

theorem inv_init (n : Nat) : Inv n (init n) := by
  refine ⟨List.length_replicate n _, ?_, rfl, ?_, ?_, ?_⟩
  · intro i p hp hhold
    rw [replicate_some hp] at hhold
    cases hhold
  · intro i hp
    cases replicate_some hp
  · intro i hp
    cases replicate_some hp
  · intro i hp
    cases replicate_some hp

theorem lt_of_getElem?_some {l : List PC} {i : Nat} {p : PC}
    (h : l[i]? = some p) : i < l.length := by
  by_contra hcon
  rw [List.getElem?_eq_none (Nat.le_of_not_lt hcon)] at h
  cases h

theorem set_lookup {l : List PC} {i j : Nat} {q p : PC}
    (h : (l.set i q)[j]? = some p) :
    (j = i ∧ p = q) ∨ (j ≠ i ∧ l[j]? = some p) := by
  by_cases hji : j = i
  · subst hji
    have hlen : j < l.length := by
      have hl := lt_of_getElem?_some h
      rwa [List.length_set] at hl
    rw [List.getElem?_set_self hlen] at h
    injection h with h
    exact Or.inl ⟨rfl, h.symm⟩
  · right
    refine ⟨hji, ?_⟩
    rwa [List.getElem?_set_ne (Ne.symm hji)] at h

/-- Mutual exclusion: two threads at lock-holding program points coincide. -/
theorem holder_unique {n : Nat} {s : CState} (inv : Inv n s) {i j : Nat}
    {p q : PC} (hi : s.pcs[i]? = some p) (hpi : isHolding p = true)
    (hj : s.pcs[j]? = some q) (hqj : isHolding q = true) : i = j := by
  have h1 := inv.holding_lock i p hi hpi
  have h2 := inv.holding_lock j q hj hqj
  exact Option.some.inj (h1.symm.trans h2)

/-- The invariant is preserved by every interleaved step. -/
theorem inv_step {n : Nat} {s t : CState} (inv : Inv n s) (hst : Step s t) :
    Inv n t := by
  cases hst with
  | fastSome i hpc hv =>
    refine ⟨by rw [List.length_set]; exact inv.len, ?_, inv.cnt, ?_, ?_, ?_⟩
    · intro j p hj hhold
      rcases set_lookup hj with ⟨hji, hp⟩ | ⟨hji, hjold⟩
      · rw [hp] at hhold
        cases hhold
      · exact inv.holding_lock j p hjold hhold
    · intro j hj
      rcases set_lookup hj with ⟨hji, hp⟩ | ⟨hji, hjold⟩
      · cases hp
      · exact inv.run_none j hjold
    · intro j hj
      rcases set_lookup hj with ⟨hji, hp⟩ | ⟨hji, hjold⟩
      · cases hp
      · exact inv.unlock_some j hjold
    · intro j hj
      rcases set_lookup hj with ⟨hji, hp⟩ | ⟨hji, hjold⟩
      · exact hv
      · exact inv.done_some j hjold
  | fastNone i hpc hv =>
    refine ⟨by rw [List.length_set]; exact inv.len, ?_, inv.cnt, ?_, ?_, ?_⟩
    · intro j p hj hhold
      rcases set_lookup hj with ⟨hji, hp⟩ | ⟨hji, hjold⟩
      · rw [hp] at hhold
        cases hhold
      · exact inv.holding_lock j p hjold hhold
    · intro j hj
      rcases set_lookup hj with ⟨hji, hp⟩ | ⟨hji, hjold⟩
      · cases hp
      · exact inv.run_none j hjold
    · intro j hj
      rcases set_lookup hj with ⟨hji, hp⟩ | ⟨hji, hjold⟩
      · cases hp
      · exact inv.unlock_some j hjold
    · intro j hj
      rcases set_lookup hj with ⟨hji, hp⟩ | ⟨hji, hjold⟩
      · cases hp
      · exact inv.done_some j hjold
  | acquire i hpc hl =>
    refine ⟨by rw [List.length_set]; exact inv.len, ?_, inv.cnt, ?_, ?_, ?_⟩
    · intro j p hj hhold
      rcases set_lookup hj with ⟨hji, hp⟩ | ⟨hji, hjold⟩
      · rw [hji]
      · have hcon := inv.holding_lock j p hjold hhold
        rw [hl] at hcon
        cases hcon
    · intro j hj
      rcases set_lookup hj with ⟨hji, hp⟩ | ⟨hji, hjold⟩
      · cases hp
      · exact inv.run_none j hjold
    · intro j hj
      rcases set_lookup hj with ⟨hji, hp⟩ | ⟨hji, hjold⟩
      · cases hp
      · exact inv.unlock_some j hjold
    · intro j hj
      rcases set_lookup hj with ⟨hji, hp⟩ | ⟨hji, hjold⟩
      · cases hp
      · exact inv.done_some j hjold
  | checkSome i hpc hv =>
    refine ⟨by rw [List.length_set]; exact inv.len, ?_, inv.cnt, ?_, ?_, ?_⟩
    · intro j p hj hhold
      rcases set_lookup hj with ⟨hji, hp⟩ | ⟨hji, hjold⟩
      · rw [hji]
        exact inv.holding_lock i PC.held hpc rfl
      · exact inv.holding_lock j p hjold hhold
    · intro j hj
      rcases set_lookup hj with ⟨hji, hp⟩ | ⟨hji, hjold⟩
      · cases hp
      · exact inv.run_none j hjold
    · intro j hj
      rcases set_lookup hj with ⟨hji, hp⟩ | ⟨hji, hjold⟩
      · exact hv
      · exact inv.unlock_some j hjold
    · intro j hj
      rcases set_lookup hj with ⟨hji, hp⟩ | ⟨hji, hjold⟩
      · cases hp
      · exact inv.done_some j hjold
  | checkNone i hpc hv =>
    refine ⟨by rw [List.length_set]; exact inv.len, ?_, inv.cnt, ?_, ?_, ?_⟩
    · intro j p hj hhold
      rcases set_lookup hj with ⟨hji, hp⟩ | ⟨hji, hjold⟩
      · rw [hji]
        exact inv.holding_lock i PC.held hpc rfl
      · exact inv.holding_lock j p hjold hhold
    · intro j hj
      rcases set_lookup hj with ⟨hji, hp⟩ | ⟨hji, hjold⟩
      · exact hv
      · exact inv.run_none j hjold
    · intro j hj
      rcases set_lookup hj with ⟨hji, hp⟩ | ⟨hji, hjold⟩
      · cases hp
      · exact inv.unlock_some j hjold
    · intro j hj
      rcases set_lookup hj with ⟨hji, hp⟩ | ⟨hji, hjold⟩
      · cases hp
      · exact inv.done_some j hjold
  | runFactory i hpc =>
    have hvnone := inv.run_none i hpc
    refine ⟨by rw [List.length_set]; exact inv.len, ?_, ?_, ?_, ?_, ?_⟩
    · intro j p hj hhold
      rcases set_lookup hj with ⟨hji, hp⟩ | ⟨hji, hjold⟩
      · rw [hji]
        exact inv.holding_lock i PC.run hpc rfl
      · exact inv.holding_lock j p hjold hhold
    · have hc := inv.cnt
      rw [hvnone] at hc
      simp at hc
      simp
      omega
    · intro j hj
      rcases set_lookup hj with ⟨hji, hp⟩ | ⟨hji, hjold⟩
      · cases hp
      · exact absurd (holder_unique inv hpc rfl hjold rfl).symm hji
    · intro j hj
      rfl
    · intro j hj
      rfl
  | release i hpc =>
    refine ⟨by rw [List.length_set]; exact inv.len, ?_, inv.cnt, ?_, ?_, ?_⟩
    · intro j p hj hhold
      rcases set_lookup hj with ⟨hji, hp⟩ | ⟨hji, hjold⟩
      · rw [hp] at hhold
        cases hhold
      · exact absurd (holder_unique inv hjold hhold hpc rfl) hji
    · intro j hj
      rcases set_lookup hj with ⟨hji, hp⟩ | ⟨hji, hjold⟩
      · cases hp
      · exact inv.run_none j hjold
    · intro j hj
      rcases set_lookup hj with ⟨hji, hp⟩ | ⟨hji, hjold⟩
      · cases hp
      · exact inv.unlock_some j hjold
    · intro j hj
      rcases set_lookup hj with ⟨hji, hp⟩ | ⟨hji, hjold⟩
      · exact inv.unlock_some i hpc
      · exact inv.done_some j hjold

/-- Every reachable state satisfies the invariant. -/
theorem reachable_inv {n : Nat} {s : CState} (h : Reachable n s) : Inv n s := by
  unfold Reachable at h
  induction h with
  | refl => exact inv_init n
  | tail _ hbc ih => exact inv_step ih hbc

/-- C2: for the spec's test factory (increments a shared counter, returns a
value), any interleaving of `n ≥ 1` concurrent `_get_value` calls from
distinct threads that runs every thread to completion leaves the shared
counter at exactly 1: the factory was invoked exactly once, regardless of
`n` and of the schedule. -/
theorem concurrent_factory_runs_exactly_once {n : Nat} {s : CState}
    (hn : 1 ≤ n) (hr : Reachable n s)
    (hdone : ∀ p ∈ s.pcs, p = PC.done) : s.counter = 1 := by
  have inv := reachable_inv hr
  have hlen : s.pcs.length = n := inv.len
  have h0lt : 0 < s.pcs.length := by
    rw [hlen]
    exact hn
  have h0 : s.pcs[0]? = some PC.done := by
    cases hp : s.pcs[0]? with
    | none =>
      rw [List.getElem?_eq_none_iff] at hp
      exact absurd h0lt (Nat.not_lt.mpr hp)
    | some p =>
      rw [hdone p (List.getElem?_mem hp)]
  have hsome := inv.done_some 0 h0
  have hc := inv.cnt
  rw [hsome] at hc
  simpa using hc

/-- C2 witness: the single-thread schedule fast-check → acquire → re-check →
factory → release reaches the all-done state with counter exactly 1. -/
theorem concurrent_factory_runs_exactly_once_witness :
    (⟨some (), none, 1, [PC.done]⟩ : CState).counter = 1 :=
  concurrent_factory_runs_exactly_once (n := 1) (by decide)
    (Relation.ReflTransGen.head (Step.fastNone _ 0 rfl rfl)
      (Relation.ReflTransGen.head (Step.acquire _ 0 rfl rfl)
        (Relation.ReflTransGen.head (Step.checkNone _ 0 rfl rfl)
          (Relation.ReflTransGen.head (Step.runFactory _ 0 rfl)
            (Relation.ReflTransGen.head (Step.release _ 0 rfl)
              Relation.ReflTransGen.refl)))))
    (by decide)

end Concurrent

end OncePerWorker
